import Mathlib

/-!
Shallow embedding of the Express items/users API in `src/index.js`
(the "enhanced" variant: JWT auth, ownership rules, filtering,
pagination, bulk operations over in-memory arrays).

Conventions of the embedding:
* JS numbers that hold item prices are modelled as `Rat`; ids, counters and
  timestamps as `Nat` (`Int` where a parsed query value can be negative).
* A missing / `undefined` value is `Option.none`.  `parseInt` / `parseFloat`
  results that are `NaN` are also folded to `none`: every use of such a value
  in the source is guarded by a JS truthiness test, and `NaN` is falsy, so the
  fold is behaviour-preserving.
* JS `x || d` on numbers (falsy: 0, NaN, undefined) is `jsOrInt` / `jsOrRat`.
* In-memory arrays (`users`, `items`, `categories`) are Lean lists; `push` is
  append at the tail, `splice(i,1)` is `removeFirstBy`, `arr[i] = v` after a
  `findIndex` is `replaceFirstBy`.
-/

/-- JS `x || d` for an optional integer (`undefined`, `NaN` and `0` are falsy). -/
def jsOrInt (x : Option Int) (d : Int) : Int :=
  match x with
  | none => d
  | some v => if v = 0 then d else v

/-- JS `x || d` for an optional rational (`undefined`, `NaN` and `0` are falsy). -/
def jsOrRat (x : Option Rat) (d : Rat) : Rat :=
  match x with
  | none => d
  | some v => if v = 0 then d else v

/-- JS truthiness of an optional integer value. -/
def jsTruthyInt (x : Option Int) : Bool :=
  match x with
  | none => false
  | some v => v != 0

/-- JS truthiness of an optional rational value. -/
def jsTruthyRat (x : Option Rat) : Bool :=
  match x with
  | none => false
  | some v => v != 0

/-- A user record (`users` store entries in `src/index.js`). -/
structure User where
  id : Nat
  username : String
  email : String
  password : String
  role : String
  createdAt : Nat
  isActive : Bool
deriving DecidableEq, Repr

/-- A category record (`categories` store entries). -/
structure Category where
  id : Nat
  name : String
  description : String
deriving DecidableEq, Repr

/-- An item record (`items` store entries). `categoryId` is nullable. -/
structure Item where
  id : Nat
  name : String
  description : String
  price : Rat
  categoryId : Option Int
  userId : Nat
  tags : List String
  stock : Nat
  createdAt : Nat
  updatedAt : Nat
  isActive : Bool
deriving DecidableEq, Repr

/-- The seeded `users` array. -/
def initUsers : List User :=
  [ { id := 1, username := "admin", email := "admin@example.com",
      password := "hash", role := "admin", createdAt := 0, isActive := true },
    { id := 2, username := "user1", email := "user1@example.com",
      password := "hash", role := "user", createdAt := 1, isActive := true } ]

/-- The seeded `categories` array. -/
def initCategories : List Category :=
  [ { id := 1, name := "Electronics", description := "Electronic devices and gadgets" },
    { id := 2, name := "Books", description := "Books and publications" },
    { id := 3, name := "Clothing", description := "Apparel and fashion items" } ]

/-- The seeded `items` array. -/
def initItems : List Item :=
  [ { id := 1, name := "Smartphone",
      description := "Latest model smartphone with advanced features",
      price := mkRat 99999 100, categoryId := some 1, userId := 1,
      tags := ["electronics", "mobile", "technology"], stock := 50,
      createdAt := 10, updatedAt := 10, isActive := true },
    { id := 2, name := "Programming Book",
      description := "Complete guide to Node.js development",
      price := mkRat 4999 100, categoryId := some 2, userId := 2,
      tags := ["books", "programming", "nodejs"], stock := 25,
      createdAt := 11, updatedAt := 11, isActive := true } ]

/-- `findUserById`: `users.find(user => user.id === parseInt(id))`. -/
def findUserById (usersL : List User) (id : Nat) : Option User :=
  usersL.find? (fun u => u.id == id)

/-- `findCategoryById`: `categories.find(category => category.id === parseInt(id))`.
The argument is the (possibly null / non-positive) `categoryId` value. -/
def findCategoryById (cats : List Category) (id : Int) : Option Category :=
  cats.find? (fun c => (c.id : Int) == id)

/-- Result of `getPaginationParams`. -/
structure PaginationParams where
  page : Int
  limit : Int
  skip : Int
deriving DecidableEq, Repr

/-- `getPaginationParams` (src/index.js lines 283-288):
`page = Math.max(1, parseInt(req.query.page) || 1)`,
`limit = Math.min(100, Math.max(1, parseInt(req.query.limit) || 10))`,
`skip = (page - 1) * limit`.  Inputs are the `parseInt` results
(`none` = parameter missing or unparseable, i.e. `NaN`). -/
def getPaginationParams (qpage qlimit : Option Int) : PaginationParams :=
  let page := max 1 (jsOrInt qpage 1)
  let limit := min 100 (max 1 (jsOrInt qlimit 10))
  { page := page, limit := limit, skip := (page - 1) * limit }

/-- The spec formula `clamp(v, lo, hi)`. -/
def specClamp (v lo hi : Int) : Int := min hi (max lo v)

/-- Raw query parameters of `GET /api/items`, already split per key and
parsed: `none` = key absent, empty (falsy raw string) or numeric parse
gave `NaN`.  `tags` is the `split(',')` list before trimming; `active`
keeps the raw string because the source compares it to `'true'` directly. -/
structure RawQuery where
  category : Option Int := none
  minPrice : Option Rat := none
  maxPrice : Option Rat := none
  search : Option String := none
  tags : Option (List String) := none
  userId : Option Int := none
  active : Option String := none
deriving DecidableEq, Repr

/-- The `filters` object built by `getFilterParams`. -/
structure Filters where
  categoryId : Option Int := none
  minPrice : Option Rat := none
  maxPrice : Option Rat := none
  search : Option String := none
  tags : Option (List String) := none
  userId : Option Int := none
  active : Option Bool := none
deriving DecidableEq, Repr

/-- `getFilterParams` (src/index.js lines 290-302): each filter key is set
iff the raw parameter is truthy (`active`: set iff the key is present at
all, as `req.query.active === 'true'`); `search` is lower-cased, `tags`
entries are trimmed. -/
def getFilterParams (q : RawQuery) : Filters :=
  { categoryId := q.category
    minPrice := q.minPrice
    maxPrice := q.maxPrice
    search := q.search.map (·.toLower)
    tags := q.tags.map (·.map String.trim)
    userId := q.userId
    active := q.active.map (· == "true") }

/-- `filters.categoryId && item.categoryId !== filters.categoryId`
(and the analogous `userId` test): the criterion rejects the item iff the
filter value is truthy and differs from the actual value. -/
def eqFilterFails (fv : Option Int) (actual : Option Int) : Bool :=
  match fv with
  | none => false
  | some v => v != 0 && actual != some v

/-- `filters.minPrice && item.price < filters.minPrice`. -/
def minPriceFails (fv : Option Rat) (price : Rat) : Bool :=
  match fv with
  | none => false
  | some v => v != 0 && price < v

/-- `filters.maxPrice && item.price > filters.maxPrice`. -/
def maxPriceFails (fv : Option Rat) (price : Rat) : Bool :=
  match fv with
  | none => false
  | some v => v != 0 && v < price

/-- JS `haystack.includes(needle)`. -/
def strIncludes (hay needle : String) : Bool :=
  String.containsSubstr hay needle.toSubstring

/-- The predicate inside `items.filter(...)` of `GET /api/items`
(src/index.js lines 480-506), one clause per early `return false`. -/
def itemPassesFilter (f : Filters) (it : Item) : Bool :=
  if !it.isActive && f.active != some false then false
  else if eqFilterFails f.categoryId it.categoryId then false
  else if eqFilterFails f.userId (some (it.userId : Int)) then false
  else if minPriceFails f.minPrice it.price then false
  else if maxPriceFails f.maxPrice it.price then false
  else if f.active.isSome && some it.isActive != f.active then false
  else if searchFails f.search it then false
  else if tagsFail f.tags it then false
  else true
where
  /-- `filters.search` clause: reject iff a search string is set and neither
  name, description nor any tag contains it (all lower-cased). -/
  searchFails (fs : Option String) (it : Item) : Bool :=
    match fs with
    | none => false
    | some s =>
      let sL := s.toLower
      !(strIncludes it.name.toLower sL || strIncludes it.description.toLower sL
          || it.tags.any (fun t => strIncludes t.toLower sL))
  /-- `filters.tags` clause: reject iff a non-empty tag list is set and no
  requested tag equals (case-insensitively) one of the item tags. -/
  tagsFail (ft : Option (List String)) (it : Item) : Bool :=
    match ft with
    | none => false
    | some ts =>
      if ts.length > 0 then
        !(ts.any (fun filterTag => it.tags.any (fun itemTag =>
            itemTag.toLower == filterTag.toLower)))
      else false

/-- The filter stage of `GET /api/items`: `items.filter(item => ...)`. -/
def filterStage (f : Filters) (itemsL : List Item) : List Item :=
  itemsL.filter (itemPassesFilter f)

/-- Pagination metadata of the `GET /api/items` response. -/
structure PageMeta where
  currentPage : Nat
  totalPages : Nat
  totalItems : Nat
  itemsPerPage : Nat
  hasNextPage : Bool
  hasPreviousPage : Bool
deriving DecidableEq, Repr

/-- One page of the `GET /api/items` response (before enrichment). -/
structure PageResult where
  data : List Item
  pagination : PageMeta
deriving DecidableEq, Repr

/-- The pagination stage of `GET /api/items` (src/index.js lines 526-550)
applied to the filtered, sorted list `l` with 1-based `page` and `limit`:
`slice(skip, skip + limit)` plus the metadata object, with
`totalPages = Math.ceil(totalItems / limit)` modelled as the exact
rational ceiling. -/
def paginateItems (l : List Item) (page limit : Nat) : PageResult :=
  let skip := (page - 1) * limit
  let totalItems := l.length
  { data := (l.drop skip).take limit
    pagination :=
      { currentPage := page
        totalPages := ⌈(totalItems : Rat) / (limit : Rat)⌉.toNat
        totalItems := totalItems
        itemsPerPage := limit
        hasNextPage := skip + limit < totalItems
        hasPreviousPage := 1 < page } }

/-- Result of the external `jwt.verify` capability: either the decoded
`userId` claim or a verification error (invalid or expired token). -/
inductive VerifyResult where
  | ok (userId : Nat)
  | err
deriving DecidableEq, Repr

/-- Outcome of the `authenticateToken` middleware (src/index.js
lines 140-170). -/
inductive AuthOutcome where
  | unauthorized
  | forbidden (message : String)
  | proceed (user : User)
deriving DecidableEq, Repr

/-- `authenticateToken`: `token` is `authHeader && authHeader.split(' ')[1]`
(`none` when the header is absent or has no second word, both falsy);
`verify` is the `jwt.verify` callback result for a given token string. -/
def authenticateToken (verify : String → VerifyResult) (usersL : List User)
    (token : Option String) : AuthOutcome :=
  match token with
  | none => .unauthorized
  | some t =>
    match verify t with
    | .err => .forbidden "Invalid or expired token"
    | .ok uid =>
      match findUserById usersL uid with
      | none => .forbidden "User not found or inactive"
      | some user =>
        if user.isActive then .proceed user
        else .forbidden "User not found or inactive"

/-- The whole in-memory server state: the three stores and their id
counters (`users`/`nextUserId`, `categories`/`nextCategoryId`,
`items`/`nextId`). -/
structure ServerState where
  users : List User
  categories : List Category
  items : List Item
  nextUserId : Nat
  nextCategoryId : Nat
  nextItemId : Nat
deriving DecidableEq, Repr

/-- The initial server state of src/index.js. -/
def initState : ServerState :=
  { users := initUsers, categories := initCategories, items := initItems
    nextUserId := 3, nextCategoryId := 4, nextItemId := 3 }

/-- HTTP status of a handler response. -/
structure Response where
  status : Nat
deriving DecidableEq, Repr

/-- Express route dispatch for a route behind `authenticateToken`:
on 401/403 the handler is never reached and the state is untouched;
otherwise the handler runs with `req.user` set to the resolved user. -/
def withAuth (verify : String → VerifyResult) (token : Option String)
    (st : ServerState) (handler : User → ServerState → Response × ServerState) :
    Response × ServerState :=
  match authenticateToken verify st.users token with
  | .unauthorized => ({ status := 401 }, st)
  | .forbidden _ => ({ status := 403 }, st)
  | .proceed user => handler user st

/-- `arr[i] = f(arr[i])` after `i = arr.findIndex(p)` (no-op when `p` never
holds, mirroring index `-1`). -/
def replaceFirstBy (p : α → Bool) (f : α → α) : List α → List α
  | [] => []
  | x :: xs => if p x then f x :: xs else x :: replaceFirstBy p f xs

/-- `arr.splice(i, 1)` after `i = arr.findIndex(p)` (no-op when `p` never
holds). -/
def removeFirstBy (p : α → Bool) : List α → List α
  | [] => []
  | x :: xs => if p x then xs else x :: removeFirstBy p xs

/-- Request body of `POST /api/items` and of each draft of
`POST /api/items/bulk`, after express-validator shape validation
(`name`/`description` required; the rest optional). -/
structure ItemDraft where
  name : String
  description : String
  price : Option Rat := none
  categoryId : Option Int := none
  tags : Option (List String) := none
  stock : Option Nat := none
deriving DecidableEq, Repr

/-- The new item object built by `POST /api/items` and the bulk loop:
`price || 0`, `categoryId || null`, `tags || []`, `stock || 0`,
`userId = req.user.id`, fresh timestamps, `isActive: true`. -/
def mkNewItem (id : Nat) (requesterId : Nat) (d : ItemDraft) (now : Nat) : Item :=
  { id := id
    name := d.name.trim
    description := d.description.trim
    price := jsOrRat d.price 0
    categoryId := match d.categoryId with
      | some c => if c = 0 then none else some c
      | none => none
    userId := requesterId
    tags := d.tags.getD []
    stock := match d.stock with
      | some s => if s = 0 then 0 else s
      | none => 0
    createdAt := now
    updatedAt := now
    isActive := true }

/-- `categoryId && !findCategoryById(categoryId)`: the category guard of
item creation and update. -/
def badCategoryRef (cats : List Category) (categoryId : Option Int) : Bool :=
  jsTruthyInt categoryId &&
    (findCategoryById cats (categoryId.getD 0)).isNone

/-- `POST /api/items` handler body (src/index.js lines 598-645), run with
the authenticated `requester`; returns the created item on success. -/
def createItem (st : ServerState) (requester : User) (d : ItemDraft)
    (now : Nat) : (Response × Option Item) × ServerState :=
  if badCategoryRef st.categories d.categoryId then
    (({ status := 400 }, none), st)
  else
    let newItem := mkNewItem st.nextItemId requester.id d now
    (({ status := 201 }, some newItem),
     { st with items := st.items ++ [newItem], nextItemId := st.nextItemId + 1 })

/-- The loop body of `POST /api/items/bulk` (src/index.js lines 663-688):
index `i` feeds the error message, each invalid `categoryId` draft is
skipped with one error, every other draft allocates `nextId++` and is
pushed to both `items` and `createdItems`. -/
def bulkCreateGo (requesterId : Nat) (now : Nat) :
    List ItemDraft → Nat → ServerState → List Item → List String →
    (List Item × List String) × ServerState
  | [], _, st, created, errs => ((created, errs), st)
  | d :: rest, i, st, created, errs =>
    if badCategoryRef st.categories d.categoryId then
      bulkCreateGo requesterId now rest (i + 1) st created
        (errs ++ ["Item " ++ toString (i + 1) ++ ": Invalid category ID"])
    else
      let newItem := mkNewItem st.nextItemId requesterId d now
      bulkCreateGo requesterId now rest (i + 1)
        { st with items := st.items ++ [newItem], nextItemId := st.nextItemId + 1 }
        (created ++ [newItem]) errs

/-- `POST /api/items/bulk` handler body (after the array-shape validation):
returns `(created, errors)` and the new state. -/
def bulkCreateItems (st : ServerState) (requester : User)
    (drafts : List ItemDraft) (now : Nat) :
    (List Item × List String) × ServerState :=
  bulkCreateGo requester.id now drafts 0 st [] []

/-- Request body of `PUT /api/items/:id` after `validateItemData`
(`name`/`description` required, the rest optional; `isActive` is read by
the handler though not validated). -/
structure ItemUpdateBody where
  name : String
  description : String
  price : Option Rat := none
  categoryId : Option Int := none
  tags : Option (List String) := none
  stock : Option Nat := none
  isActive : Option Bool := none
deriving DecidableEq, Repr

/-- The object spread of the update (src/index.js lines 740-750):
each field is `x !== undefined ? x : existingItem.x`;
`isActive` only changes when the requester is an admin and the body
supplies it; `id`, `userId`, `createdAt` are untouched by the spread. -/
def applyUpdate (requesterRole : String) (b : ItemUpdateBody) (now : Nat)
    (existing : Item) : Item :=
  { existing with
    name := b.name.trim
    description := b.description.trim
    price := b.price.getD existing.price
    categoryId := match b.categoryId with
      | some c => some c
      | none => existing.categoryId
    tags := b.tags.getD existing.tags
    stock := b.stock.getD existing.stock
    isActive :=
      if requesterRole == "admin" && b.isActive.isSome then
        b.isActive.getD existing.isActive
      else existing.isActive
    updatedAt := now }

/-- `PUT /api/items/:id` handler body (src/index.js lines 707-772), run
with the authenticated `requester`: 404 when no item has the id, 403 when
the requester is neither owner nor admin, 400 on a dangling `categoryId`,
else replace the item found by `findIndex` in place. -/
def putItem (st : ServerState) (requester : User) (id : Nat)
    (b : ItemUpdateBody) (now : Nat) : Response × ServerState :=
  match st.items.find? (fun it => it.id == id) with
  | none => ({ status := 404 }, st)
  | some existing =>
    if existing.userId != requester.id && requester.role != "admin" then
      ({ status := 403 }, st)
    else if badCategoryRef st.categories b.categoryId then
      ({ status := 400 }, st)
    else
      let newItems :=
        replaceFirstBy (fun it => it.id == id)
          (applyUpdate requester.role b now) st.items
      ({ status := 200 }, { st with items := newItems })

/-- `DELETE /api/items/:id` handler body (src/index.js lines 775-811):
404 when absent, 403 when neither owner nor admin, else splice the item
out. -/
def deleteItem (st : ServerState) (requester : User) (id : Nat) :
    Response × ServerState :=
  match st.items.find? (fun it => it.id == id) with
  | none => ({ status := 404 }, st)
  | some existing =>
    if existing.userId != requester.id && requester.role != "admin" then
      ({ status := 403 }, st)
    else
      ({ status := 200 },
       { st with items := removeFirstBy (fun it => it.id == id) st.items })

/-- The loop body of `DELETE /api/items/bulk` (src/index.js lines 824-842). -/
def bulkDeleteGo (requesterId : Nat) (requesterRole : String) :
    List Nat → ServerState → List Item → List String →
    (List Item × List String) × ServerState
  | [], st, deleted, errs => ((deleted, errs), st)
  | id :: rest, st, deleted, errs =>
    match st.items.find? (fun it => it.id == id) with
    | none =>
      bulkDeleteGo requesterId requesterRole rest st deleted
        (errs ++ ["Item with ID " ++ toString id ++ " not found"])
    | some existing =>
      if existing.userId != requesterId && requesterRole != "admin" then
        bulkDeleteGo requesterId requesterRole rest st deleted
          (errs ++ ["No permission to delete item with ID " ++ toString id])
      else
        bulkDeleteGo requesterId requesterRole rest
          { st with items := removeFirstBy (fun it => it.id == id) st.items }
          (deleted ++ [existing]) errs

/-- `DELETE /api/items/bulk` handler body. -/
def bulkDeleteItems (st : ServerState) (requester : User) (ids : List Nat) :
    (List Item × List String) × ServerState :=
  bulkDeleteGo requester.id requester.role ids st [] []

/-- `POST /auth/register` handler body after validation (src/index.js
lines 350-405): 409 on duplicate username or email, else push a fresh
user with `nextUserId++`, role `user`, active. -/
def registerUser (st : ServerState) (username email passwordHash : String)
    (now : Nat) : (Response × Option User) × ServerState :=
  if (st.users.find? (fun u => u.username == username)).isSome then
    (({ status := 409 }, none), st)
  else if (st.users.find? (fun u => u.email == email)).isSome then
    (({ status := 409 }, none), st)
  else
    let newUser : User :=
      { id := st.nextUserId, username := username, email := email
        password := passwordHash, role := "user", createdAt := now
        isActive := true }
    (({ status := 201 }, some newUser),
     { st with users := st.users ++ [newUser], nextUserId := st.nextUserId + 1 })

/-- `POST /api/categories` handler body after `requireAdmin` and
validation (src/index.js lines 917-950): 409 when a category of the same
lower-cased name exists, else push with `nextCategoryId++`. -/
def createCategory (st : ServerState) (name description : String) :
    (Response × Option Category) × ServerState :=
  if (st.categories.find? (fun c => c.name.toLower == name.toLower)).isSome then
    (({ status := 409 }, none), st)
  else
    let newCategory : Category :=
      { id := st.nextCategoryId, name := name.trim
        description := description.trim }
    (({ status := 201 }, some newCategory),
     { st with categories := st.categories ++ [newCategory]
               nextCategoryId := st.nextCategoryId + 1 })

/-- `PUT /api/users/:id/status` handler body after `requireAdmin` and
validation (src/index.js lines 1034-1074): 404 when no such user, 400
when the admin targets their own id with `isActive: false`, else set the
flag in place. -/
def setUserStatus (st : ServerState) (requester : User) (id : Nat)
    (isActive : Bool) : Response × ServerState :=
  match st.users.find? (fun u => u.id == id) with
  | none => ({ status := 404 }, st)
  | some _ =>
    if id == requester.id && !isActive then
      ({ status := 400 }, st)
    else
      let newUsers :=
        replaceFirstBy (fun u => u.id == id)
          (fun u => { u with isActive := isActive }) st.users
      ({ status := 200 }, { st with users := newUsers })

/-- One mutating API operation, carrying the already-resolved requester
where the route is authenticated (any `User` value is allowed, which
covers every requester the auth middleware could resolve). -/
inductive Op where
  | register (username email passwordHash : String) (now : Nat)
  | createItem (requester : User) (d : ItemDraft) (now : Nat)
  | bulkCreateItems (requester : User) (drafts : List ItemDraft) (now : Nat)
  | putItem (requester : User) (id : Nat) (b : ItemUpdateBody) (now : Nat)
  | deleteItem (requester : User) (id : Nat)
  | bulkDeleteItems (requester : User) (ids : List Nat)
  | createCategory (name description : String)
  | setUserStatus (requester : User) (id : Nat) (isActive : Bool)

/-- State transition of one API operation (the handler bodies above,
forgetting the response). -/
def step (st : ServerState) : Op → ServerState
  | .register u e p n => (registerUser st u e p n).2
  | .createItem r d n => (createItem st r d n).2
  | .bulkCreateItems r ds n => (bulkCreateItems st r ds n).2
  | .putItem r id b n => (putItem st r id b n).2
  | .deleteItem r id => (deleteItem st r id).2
  | .bulkDeleteItems r ids => (bulkDeleteItems st r ids).2
  | .createCategory n d => (createCategory st n d).2
  | .setUserStatus r id b => (setUserStatus st r id b).2

/-- Run a sequence of API operations from a state. -/
def execOps : ServerState → List Op → ServerState
  | st, [] => st
  | st, op :: rest => execOps (step st op) rest

/-- Ids of user records created by one operation in a given state
(read off the records the handler reports as created). -/
def userIdsCreated (st : ServerState) : Op → List Nat
  | .register u e p n =>
    match (registerUser st u e p n).1.2 with
    | some nu => [nu.id]
    | none => []
  | _ => []

/-- Ids of category records created by one operation in a given state. -/
def catIdsCreated (st : ServerState) : Op → List Nat
  | .createCategory n d =>
    match (createCategory st n d).1.2 with
    | some c => [c.id]
    | none => []
  | _ => []

/-- Ids of item records created by one operation in a given state. -/
def itemIdsCreated (st : ServerState) : Op → List Nat
  | .createItem r d n =>
    match (createItem st r d n).1.2 with
    | some it => [it.id]
    | none => []
  | .bulkCreateItems r ds n => ((bulkCreateItems st r ds n).1.1).map Item.id
  | _ => []

/-- All ids allocated (per the projection `f`) along a run, in allocation
order. -/
def allocLog (f : ServerState → Op → List Nat) : ServerState → List Op → List Nat
  | _, [] => []
  | st, op :: rest => f st op ++ allocLog f (step st op) rest

/-- The store invariant: within each store the ids are pairwise distinct
and every id is strictly below the store's allocation counter. -/
def storeInv (st : ServerState) : Prop :=
  (st.users.map User.id).Nodup ∧ (∀ u ∈ st.users, u.id < st.nextUserId) ∧
  (st.categories.map Category.id).Nodup ∧
    (∀ c ∈ st.categories, c.id < st.nextCategoryId) ∧
  (st.items.map Item.id).Nodup ∧ (∀ it ∈ st.items, it.id < st.nextItemId)

/-- What one operation guarantees: the invariant is preserved, counters
never decrease, and the ids allocated by the operation are strictly
increasing and lie between the old and the new counter of their store. -/
def StepSpec (st : ServerState) (op : Op) : Prop :=
  storeInv (step st op) ∧
  st.nextUserId ≤ (step st op).nextUserId ∧
  st.nextCategoryId ≤ (step st op).nextCategoryId ∧
  st.nextItemId ≤ (step st op).nextItemId ∧
  ((userIdsCreated st op).Pairwise (· < ·) ∧
    ∀ i ∈ userIdsCreated st op,
      st.nextUserId ≤ i ∧ i < (step st op).nextUserId) ∧
  ((catIdsCreated st op).Pairwise (· < ·) ∧
    ∀ i ∈ catIdsCreated st op,
      st.nextCategoryId ≤ i ∧ i < (step st op).nextCategoryId) ∧
  ((itemIdsCreated st op).Pairwise (· < ·) ∧
    ∀ i ∈ itemIdsCreated st op,
      st.nextItemId ≤ i ∧ i < (step st op).nextItemId)

/-- The seeded admin account (first entry of `initUsers`). -/
def adminUser : User :=
  { id := 1, username := "admin", email := "admin@example.com",
    password := "hash", role := "admin", createdAt := 0, isActive := true }

/-- The seeded non-admin account (second entry of `initUsers`). -/
def regularUser : User :=
  { id := 2, username := "user1", email := "user1@example.com",
    password := "hash", role := "user", createdAt := 1, isActive := true }

/-- The first seeded item (owned by user id 1). -/
def seedItem1 : Item :=
  { id := 1, name := "Smartphone",
    description := "Latest model smartphone with advanced features",
    price := mkRat 99999 100, categoryId := some 1, userId := 1,
    tags := ["electronics", "mobile", "technology"], stock := 50,
    createdAt := 10, updatedAt := 10, isActive := true }

/-- A concrete valid update body used to instantiate theorems. -/
def sampleUpdateBody : ItemUpdateBody :=
  { name := "Renamed", description := "Updated description" }

/-- A concrete bulk-create batch of three drafts, exactly one of which
references a nonexistent category (id 99). -/
def sampleDrafts : List ItemDraft :=
  [ { name := "A", description := "first", categoryId := some 1 },
    { name := "B", description := "second", categoryId := some 99 },
    { name := "C", description := "third" } ]

/-- A verifier accepting exactly the token string "good", decoding it to
user id 2. -/
def sampleVerify : String → VerifyResult :=
  fun t => if t == "good" then .ok 2 else .err

/-- A handler that reports success and leaves the state unchanged. -/
def sampleHandler : User → ServerState → Response × ServerState :=
  fun _ s => ({ status := 200 }, s)

/-! ## Shared helper lemmas -/

theorem replaceFirstBy_map_eq {α β : Type} (p : α → Bool) (f : α → α) (g : α → β)
    (hf : ∀ x, g (f x) = g x) : ∀ l : List α, (replaceFirstBy p f l).map g = l.map g
  | [] => rfl
  | x :: xs => by
    by_cases h : p x <;>
      simp [replaceFirstBy, h, hf, replaceFirstBy_map_eq p f g hf xs]

theorem mem_replaceFirstBy {α : Type} (p : α → Bool) (f : α → α) :
    ∀ (l : List α) (x : α), x ∈ replaceFirstBy p f l → x ∈ l ∨ ∃ y ∈ l, x = f y
  | [], x, h => by simp [replaceFirstBy] at h
  | a :: xs, x, h => by
    by_cases hp : p a
    · simp [replaceFirstBy, hp, List.mem_cons] at h
      rcases h with h | h
      · exact Or.inr ⟨a, List.mem_cons_self a xs, h⟩
      · exact Or.inl (List.mem_cons_of_mem a h)
    · simp [replaceFirstBy, hp, List.mem_cons] at h
      rcases h with h | h
      · exact Or.inl (h ▸ List.mem_cons_self a xs)
      · rcases mem_replaceFirstBy p f xs x h with h1 | ⟨y, hy, hxy⟩
        · exact Or.inl (List.mem_cons_of_mem a h1)
        · exact Or.inr ⟨y, List.mem_cons_of_mem a hy, hxy⟩

theorem removeFirstBy_sublist {α : Type} (p : α → Bool) :
    ∀ l : List α, List.Sublist (removeFirstBy p l) l
  | [] => List.Sublist.refl []
  | x :: xs => by
    by_cases h : p x
    · rw [removeFirstBy, if_pos h]
      exact List.sublist_cons_self x xs
    · rw [removeFirstBy, if_neg h]
      exact (removeFirstBy_sublist p xs).cons₂ x

theorem find?_eq_some_decomp {α : Type} (p : α → Bool) :
    ∀ (l : List α) (a : α), l.find? p = some a →
      ∃ l₁ l₂, l = l₁ ++ a :: l₂ ∧ (∀ x ∈ l₁, p x = false) ∧ p a = true ∧
        ∀ f : α → α, replaceFirstBy p f l = l₁ ++ f a :: l₂
  | [], a, h => by simp at h
  | x :: xs, a, h => by
    by_cases hp : p x
    · rw [List.find?_cons_of_pos xs hp] at h
      have hxa : x = a := Option.some.inj h
      subst hxa
      exact ⟨[], xs, by simp, by simp, hp, fun f => by simp [replaceFirstBy, hp]⟩
    · have hp' : p x = false := by simpa using hp
      rw [List.find?_cons_of_neg xs hp] at h
      rcases find?_eq_some_decomp p xs a h with ⟨l₁, l₂, hl, hl1, hpa, hrep⟩
      refine ⟨x :: l₁, l₂, by simp [hl], ?_, hpa, ?_⟩
      · intro y hy
        rcases List.mem_cons.mp hy with rfl | hy
        · exact hp'
        · exact hl1 y hy
      · intro f
        simp [replaceFirstBy, hp', hrep f]

theorem flatMap_range_page_slices {α : Type} (L : Nat) (l : List α) :
    ∀ k : Nat,
      (List.range k).flatMap (fun i => (l.drop (i * L)).take L) = l.take (k * L)
  | 0 => by simp
  | k + 1 => by
    rw [List.range_succ, List.flatMap_append,
      flatMap_range_page_slices L l k]
    simp [Nat.succ_mul, List.take_add]

/-! ## C8: pagination-parameter parsing -/

/-- C8: pagination parsing yields `page = max(1, parsed page or 1)`,
`limit = clamp(parsed limit or 10, 1, 100)` and `skip = (page-1)*limit`;
a missing or unparseable page yields 1, a missing limit yields 10, and
the returned limit always lies in `1..100`. -/
theorem C8_pagination_parsing (p l : Option Int) :
    (getPaginationParams p l).page = max 1 (jsOrInt p 1) ∧
    (getPaginationParams p l).limit = specClamp (jsOrInt l 10) 1 100 ∧
    (getPaginationParams p l).skip =
      ((getPaginationParams p l).page - 1) * (getPaginationParams p l).limit ∧
    (getPaginationParams none l).page = 1 ∧
    (getPaginationParams p none).limit = 10 ∧
    1 ≤ (getPaginationParams p l).limit ∧ (getPaginationParams p l).limit ≤ 100 := by
  refine ⟨rfl, rfl, rfl, ?_, ?_, ?_, ?_⟩
  · simp [getPaginationParams, jsOrInt]
  · simp [getPaginationParams, jsOrInt]
  · exact le_min (by norm_num) (le_max_left 1 _)
  · exact min_le_left _ _

/-! ## C1: the minPrice/maxPrice filter stage -/

theorem itemPassesFilter_price_checks (f : Filters) (it : Item)
    (h : itemPassesFilter f it = true) :
    minPriceFails f.minPrice it.price = false ∧
    maxPriceFails f.maxPrice it.price = false := by
  unfold itemPassesFilter at h
  repeat' split at h
  all_goals simp_all

/-- C1 counterexample: with `minPrice=0&maxPrice=0` (both accepted by the
endpoint, `0 ≤ 0 ≤ 0`) the filter stage of `GET /api/items` does not
restrict to `0 ≤ price ≤ 0`: the seeded items (prices 999.99 and 49.99)
pass, because both price checks are guarded by JS truthiness and `0` is
falsy. -/
theorem C1_counterexample :
    ¬ (∀ it ∈ filterStage
        (getFilterParams { minPrice := some 0, maxPrice := some 0 }) initItems,
        0 ≤ it.price ∧ it.price ≤ 0) := by
  decide

/-- C1 amended: for every item list and every query carrying `minPrice=X`
and `maxPrice=Y` with `0 < X ≤ Y`, the filter stage returns only items
with `X ≤ price ≤ Y` (a zero bound disables that side of the range
check, so `X = 0` and `Y = 0` are excluded). -/
theorem C1_price_filter_amended (q : RawQuery) (l : List Item) (X Y : Rat)
    (hmin : q.minPrice = some X) (hmax : q.maxPrice = some Y)
    (hX : 0 < X) (hXY : X ≤ Y) :
    ∀ it ∈ filterStage (getFilterParams q) l, X ≤ it.price ∧ it.price ≤ Y := by
  intro it hit
  rw [filterStage, List.mem_filter] at hit
  obtain ⟨-, hpass⟩ := hit
  obtain ⟨hminF, hmaxF⟩ := itemPassesFilter_price_checks _ _ hpass
  have hfmin : (getFilterParams q).minPrice = some X := by
    simp [getFilterParams, hmin]
  have hfmax : (getFilterParams q).maxPrice = some Y := by
    simp [getFilterParams, hmax]
  rw [hfmin] at hminF
  rw [hfmax] at hmaxF
  simp only [minPriceFails] at hminF
  simp only [maxPriceFails] at hmaxF
  constructor
  · have hXne : X ≠ 0 := ne_of_gt hX
    simp [hXne] at hminF
    exact hminF
  · have hYne : Y ≠ 0 := ne_of_gt (lt_of_lt_of_le hX hXY)
    simp [hYne] at hmaxF
    exact hmaxF

/-- C1 witness: the amended bound, instantiated at a concrete query, the
seeded items and the seeded smartphone item, which passes the filter. -/
theorem C1_price_filter_amended_witness :
    (1 : Rat) ≤ seedItem1.price ∧ seedItem1.price ≤ 1000 :=
  C1_price_filter_amended { minPrice := some 1, maxPrice := some 1000 }
    initItems 1 1000 rfl rfl (by norm_num) (by norm_num) seedItem1 (by decide)

/-! ## C2: pagination metadata and page concatenation -/

/-- C2: for every (filtered, sorted) list of size `N` and every
`limit = L` with `1 ≤ L ≤ 100`, every page's metadata reports
`totalPages = ⌈N / L⌉`, and concatenating the `data` arrays of pages
`1 .. totalPages` reproduces the whole list exactly (each element once,
in order). -/
theorem C2_pagination (l : List Item) (L : Nat) (hL1 : 1 ≤ L) (_hL2 : L ≤ 100) :
    (∀ page, (paginateItems l page L).pagination.totalPages
        = ⌈(l.length : Rat) / (L : Rat)⌉₊) ∧
    (List.range (paginateItems l 1 L).pagination.totalPages).flatMap
        (fun i => (paginateItems l (i + 1) L).data) = l := by
  have hTP : ∀ page, (paginateItems l page L).pagination.totalPages
      = ⌈(l.length : Rat) / (L : Rat)⌉₊ := by
    intro page
    simp [paginateItems, Int.ceil_toNat]
  refine ⟨hTP, ?_⟩
  have hdata : ∀ i, (paginateItems l (i + 1) L).data = (l.drop (i * L)).take L := by
    intro i
    simp [paginateItems]
  have hL0 : (0 : Rat) < (L : Rat) := by exact_mod_cast hL1
  have hk : l.length ≤ ⌈(l.length : Rat) / (L : Rat)⌉₊ * L := by
    have hle := Nat.le_ceil ((l.length : Rat) / (L : Rat))
    rw [div_le_iff₀ hL0] at hle
    exact_mod_cast hle
  rw [hTP 1]
  simp only [hdata]
  rw [flatMap_range_page_slices]
  exact List.take_of_length_le hk

/-! ## C3 and C4: the auth middleware -/

/-- C3: the auth middleware returns 401 Unauthorized when no bearer token
is present; 403 Forbidden when verification fails, the decoded id
resolves to no user, or the resolved user is inactive; otherwise it
attaches the resolved user and proceeds — and whenever it does not
proceed, the dispatched request leaves the whole server state (users,
items, categories) unchanged. -/
theorem C3_auth_middleware (verify : String → VerifyResult) (st : ServerState)
    (token : Option String) :
    (token = none → authenticateToken verify st.users token = .unauthorized) ∧
    (∀ t, token = some t → verify t = .err →
      authenticateToken verify st.users token =
        .forbidden "Invalid or expired token") ∧
    (∀ t uid, token = some t → verify t = .ok uid →
      findUserById st.users uid = none →
      authenticateToken verify st.users token =
        .forbidden "User not found or inactive") ∧
    (∀ t uid u, token = some t → verify t = .ok uid →
      findUserById st.users uid = some u → u.isActive = false →
      authenticateToken verify st.users token =
        .forbidden "User not found or inactive") ∧
    (∀ t uid u, token = some t → verify t = .ok uid →
      findUserById st.users uid = some u → u.isActive = true →
      authenticateToken verify st.users token = .proceed u) ∧
    (∀ handler : User → ServerState → Response × ServerState,
      (∀ u, authenticateToken verify st.users token ≠ .proceed u) →
      (withAuth verify token st handler).2 = st) := by
  refine ⟨?_, ?_, ?_, ?_, ?_, ?_⟩
  · rintro rfl
    rfl
  · rintro t rfl hv
    simp [authenticateToken, hv]
  · rintro t uid rfl hv hf
    simp [authenticateToken, hv, hf]
  · rintro t uid u rfl hv hf hact
    simp [authenticateToken, hv, hf, hact]
  · rintro t uid u rfl hv hf hact
    simp [authenticateToken, hv, hf, hact]
  · intro handler hne
    cases hao : authenticateToken verify st.users token with
    | unauthorized => simp [withAuth, hao]
    | forbidden m => simp [withAuth, hao]
    | proceed u => exact absurd hao (hne u)

/-- C3 witness: the middleware classification at a concrete verifier,
token values and the seeded users. -/
theorem C3_auth_middleware_witness :
    authenticateToken sampleVerify initState.users none = .unauthorized ∧
    authenticateToken sampleVerify initState.users (some "bad") =
      .forbidden "Invalid or expired token" ∧
    authenticateToken sampleVerify initState.users (some "good") =
      .proceed regularUser ∧
    (withAuth sampleVerify (some "bad") initState sampleHandler).2 = initState := by
  have h1 := (C3_auth_middleware sampleVerify initState none).1 rfl
  have h2 := (C3_auth_middleware sampleVerify initState (some "bad")).2.1
    "bad" rfl (by decide)
  have h3 := (C3_auth_middleware sampleVerify initState (some "good")).2.2.2.2.1
    "good" 2 regularUser rfl (by decide) (by decide) rfl
  have hforb : authenticateToken sampleVerify initState.users (some "bad") =
      .forbidden "Invalid or expired token" := by decide
  have h4 := (C3_auth_middleware sampleVerify initState (some "bad")).2.2.2.2.2
    sampleHandler (fun u h => by rw [hforb] at h; exact AuthOutcome.noConfusion h)
  exact ⟨h1, h2, h3, h4⟩

/-- C4 counterexample: a request bearing a token whose verification fails
(invalid or expired) is answered with status 403, not 401 as the claim
states. -/
theorem C4_counterexample :
    (withAuth (fun _ => VerifyResult.err) (some "stale") initState
        sampleHandler).1.status = 403 ∧
    (withAuth (fun _ => VerifyResult.err) (some "stale") initState
        sampleHandler).1.status ≠ 401 := by
  constructor
  · rfl
  · decide

/-- C4 amended: for every request to an authenticated endpoint bearing a
token that is invalid or expired, the response status is 403 Forbidden
(the middleware maps `jwt.verify` errors to 403; the 401 branch of the
global error handler is unreachable for them). -/
theorem C4_invalid_token_status (verify : String → VerifyResult)
    (st : ServerState) (token : Option String) (t : String)
    (handler : User → ServerState → Response × ServerState)
    (htok : token = some t) (hv : verify t = .err) :
    (withAuth verify token st handler).1.status = 403 := by
  subst htok
  simp [withAuth, authenticateToken, hv]

/-- C4 witness: the amended status at a concrete failing verifier. -/
theorem C4_invalid_token_status_witness :
    (withAuth (fun _ => VerifyResult.err) (some "stale") initState
        sampleHandler).1.status = 403 :=
  C4_invalid_token_status (fun _ => VerifyResult.err) initState (some "stale")
    "stale" sampleHandler rfl rfl

/-! ## C5: ownership checks of PUT and DELETE -/

/-- C5: for every existing item and every requester who is neither the
item's owner nor an admin, the `PUT /api/items/:id` and
`DELETE /api/items/:id` handlers answer 403 Forbidden and leave the whole
state (in particular the items store) exactly unchanged. -/
theorem C5_ownership_forbidden (st : ServerState) (requester : User) (id : Nat)
    (b : ItemUpdateBody) (now : Nat) (existing : Item)
    (hfind : st.items.find? (fun it => it.id == id) = some existing)
    (hown : existing.userId ≠ requester.id) (hrole : requester.role ≠ "admin") :
    putItem st requester id b now = ({ status := 403 }, st) ∧
    deleteItem st requester id = ({ status := 403 }, st) := by
  have hcond : (existing.userId != requester.id && requester.role != "admin")
      = true := by
    simp [hown, hrole]
  constructor
  · simp [putItem, hfind, hcond]
  · simp [deleteItem, hfind, hcond]

/-- C5 witness: the seeded non-admin user1 attempting PUT/DELETE on the
seeded item 1 owned by user id 1. -/
theorem C5_ownership_forbidden_witness :
    putItem initState regularUser 1 sampleUpdateBody 99 =
      ({ status := 403 }, initState) ∧
    deleteItem initState regularUser 1 = ({ status := 403 }, initState) :=
  C5_ownership_forbidden initState regularUser 1 sampleUpdateBody 99
    seedItem1 (by decide) (by decide) (by decide)

/-! ## C7: admin self-deactivation guard -/

/-- C7: an admin targeting their own id with `isActive: false` receives
400 Bad Request and the state (hence their active flag) is unchanged;
deactivating any other existing user succeeds with 200 and flips exactly
that user's flag. -/
theorem C7_self_deactivation (st : ServerState) (requester : User)
    (target other : User) (otherId : Nat)
    (hadmin : requester.role = "admin")
    (hself : st.users.find? (fun u => u.id == requester.id) = some target)
    (hother : st.users.find? (fun u => u.id == otherId) = some other)
    (hne : otherId ≠ requester.id) :
    setUserStatus st requester requester.id false = ({ status := 400 }, st) ∧
    (setUserStatus st requester otherId false).1.status = 200 ∧
    ∃ l₁ l₂, st.users = l₁ ++ other :: l₂ ∧
      (setUserStatus st requester otherId false).2.users =
        l₁ ++ { other with isActive := false } :: l₂ := by
  have hcond : (otherId == requester.id && !false) = false := by
    simp [hne]
  obtain ⟨l₁, l₂, hl, -, -, hrep⟩ :=
    find?_eq_some_decomp _ st.users other hother
  refine ⟨?_, ?_, l₁, l₂, hl, ?_⟩
  · simp [setUserStatus, hself]
  · simp [setUserStatus, hother, hcond, hne]
  · simp [setUserStatus, hother, hcond, hne, hrep]

/-- C7 witness: the seeded admin (id 1) cannot deactivate itself but can
deactivate the seeded user id 2. -/
theorem C7_self_deactivation_witness :
    setUserStatus initState adminUser adminUser.id false =
      ({ status := 400 }, initState) ∧
    (setUserStatus initState adminUser 2 false).1.status = 200 ∧
    ∃ l₁ l₂, initState.users = l₁ ++ regularUser :: l₂ ∧
      (setUserStatus initState adminUser 2 false).2.users =
        l₁ ++ { regularUser with isActive := false } :: l₂ :=
  C7_self_deactivation initState adminUser adminUser regularUser 2
    rfl (by decide) (by decide) (by decide)

/-! ## C10: frame conditions of a successful item update -/

/-- C10: a successful `PUT /api/items/:id` keeps the item's `id`,
`userId` and `createdAt`; its `isActive` flag changes only when the
requester is an admin supplying `isActive` in the body; and the rest of
the items store is untouched (the update rewrites exactly the first item
matching the id). -/
theorem C10_put_frame (st : ServerState) (requester : User) (id : Nat)
    (b : ItemUpdateBody) (now : Nat) (existing : Item)
    (hfind : st.items.find? (fun it => it.id == id) = some existing)
    (hallow : (existing.userId != requester.id && requester.role != "admin")
      = false)
    (hcat : badCategoryRef st.categories b.categoryId = false) :
    (putItem st requester id b now).1.status = 200 ∧
    (applyUpdate requester.role b now existing).id = existing.id ∧
    (applyUpdate requester.role b now existing).userId = existing.userId ∧
    (applyUpdate requester.role b now existing).createdAt = existing.createdAt ∧
    ((requester.role ≠ "admin" ∨ b.isActive = none) →
      (applyUpdate requester.role b now existing).isActive = existing.isActive) ∧
    ∃ l₁ l₂, st.items = l₁ ++ existing :: l₂ ∧
      (∀ x ∈ l₁, (x.id == id) = false) ∧
      (putItem st requester id b now).2.items =
        l₁ ++ applyUpdate requester.role b now existing :: l₂ := by
  obtain ⟨l₁, l₂, hl, hl1, -, hrep⟩ :=
    find?_eq_some_decomp _ st.items existing hfind
  refine ⟨?_, rfl, rfl, rfl, ?_, l₁, l₂, hl, hl1, ?_⟩
  · simp [putItem, hfind, hallow, hcat]
  · rintro (h | h)
    · simp [applyUpdate, h]
    · simp [applyUpdate, h]
  · simp [putItem, hfind, hallow, hcat, hrep]

/-- C10 witness: the admin updating seeded item 1 with a body that does
not supply `isActive`. -/
theorem C10_put_frame_witness :
    (putItem initState adminUser 1 sampleUpdateBody 99).1.status = 200 ∧
    (applyUpdate adminUser.role sampleUpdateBody 99 seedItem1).id =
      seedItem1.id ∧
    (applyUpdate adminUser.role sampleUpdateBody 99 seedItem1).userId =
      seedItem1.userId ∧
    (applyUpdate adminUser.role sampleUpdateBody 99 seedItem1).createdAt =
      seedItem1.createdAt ∧
    ((adminUser.role ≠ "admin" ∨ sampleUpdateBody.isActive = none) →
      (applyUpdate adminUser.role sampleUpdateBody 99 seedItem1).isActive =
        seedItem1.isActive) ∧
    ∃ l₁ l₂, initState.items = l₁ ++ seedItem1 :: l₂ ∧
      (∀ x ∈ l₁, (x.id == 1) = false) ∧
      (putItem initState adminUser 1 sampleUpdateBody 99).2.items =
        l₁ ++ applyUpdate adminUser.role sampleUpdateBody 99 seedItem1 :: l₂ :=
  C10_put_frame initState adminUser 1 sampleUpdateBody 99 seedItem1
    (by decide) (by decide) (by decide)

/-! ## C6: bulk create partial-success semantics -/

theorem length_filter_split {α : Type} (p : α → Bool) :
    ∀ l : List α, (l.filter p).length + (l.filter (fun a => !p a)).length = l.length
  | [] => rfl
  | x :: xs => by
    have ih := length_filter_split p xs
    by_cases h : p x <;> simp [h] <;> omega

theorem bulkCreateGo_counts (rid now : Nat) :
    ∀ (drafts : List ItemDraft) (i : Nat) (st : ServerState)
      (created : List Item) (errs : List String),
      ((bulkCreateGo rid now drafts i st created errs).1.1).length =
        created.length +
          (drafts.filter
            (fun d => !badCategoryRef st.categories d.categoryId)).length ∧
      ((bulkCreateGo rid now drafts i st created errs).1.2).length =
        errs.length +
          (drafts.filter
            (fun d => badCategoryRef st.categories d.categoryId)).length
  | [], i, st, created, errs => by simp [bulkCreateGo]
  | d :: rest, i, st, created, errs => by
    by_cases hbad : badCategoryRef st.categories d.categoryId
    · have ih := bulkCreateGo_counts rid now rest (i + 1) st created
        (errs ++ ["Item " ++ toString (i + 1) ++ ": Invalid category ID"])
      simp only [bulkCreateGo, if_pos hbad]
      rw [ih.1, ih.2]
      simp [hbad]
      omega
    · have ih := bulkCreateGo_counts rid now rest (i + 1)
        { st with items := st.items ++ [mkNewItem st.nextItemId rid d now],
                  nextItemId := st.nextItemId + 1 }
        (created ++ [mkNewItem st.nextItemId rid d now]) errs
      simp only [bulkCreateGo, if_neg hbad]
      rw [ih.1, ih.2]
      simp [hbad]
      omega

/-- C6: a shape-valid bulk-create batch of 1..50 drafts never aborts:
each draft with a dangling `categoryId` contributes exactly one error
message and no item, every other draft contributes exactly one created
item, and `created.length + errors.length` equals the number of
drafts. -/
theorem C6_bulk_partial_success (st : ServerState) (requester : User)
    (drafts : List ItemDraft) (now : Nat)
    (h1 : 1 ≤ drafts.length) (h50 : drafts.length ≤ 50) :
    (bulkCreateItems st requester drafts now).1.1.length +
      (bulkCreateItems st requester drafts now).1.2.length = drafts.length ∧
    (bulkCreateItems st requester drafts now).1.1.length =
      (drafts.filter
        (fun d => !badCategoryRef st.categories d.categoryId)).length ∧
    (bulkCreateItems st requester drafts now).1.2.length =
      (drafts.filter
        (fun d => badCategoryRef st.categories d.categoryId)).length := by
  obtain ⟨hc, he⟩ := bulkCreateGo_counts requester.id now drafts 0 st [] []
  rw [bulkCreateItems, hc, he]
  have hsplit :=
    length_filter_split (fun d => badCategoryRef st.categories d.categoryId) drafts
  simp only [Bool.not_eq_true] at hsplit
  simp
  omega

/-- C6 witness: three drafts, exactly one referencing a nonexistent
category id, yield 2 created items and 1 error. -/
theorem C6_bulk_partial_success_witness :
    (bulkCreateItems initState regularUser sampleDrafts 42).1.1.length +
      (bulkCreateItems initState regularUser sampleDrafts 42).1.2.length = 3 ∧
    (bulkCreateItems initState regularUser sampleDrafts 42).1.1.length = 2 ∧
    (bulkCreateItems initState regularUser sampleDrafts 42).1.2.length = 1 := by
  obtain ⟨ha, hb, hcℓ⟩ := C6_bulk_partial_success initState regularUser
    sampleDrafts 42 (by decide) (by decide)
  refine ⟨?_, ?_, ?_⟩
  · rw [ha]
    decide
  · rw [hb]
    decide
  · rw [hcℓ]
    decide

/-- C2 witness: pagination of the seeded items with limit 1. -/
theorem C2_pagination_witness :
    (∀ page, (paginateItems initItems page 1).pagination.totalPages
        = ⌈(initItems.length : Rat) / ((1 : Nat) : Rat)⌉₊) ∧
    (List.range (paginateItems initItems 1 1).pagination.totalPages).flatMap
        (fun i => (paginateItems initItems (i + 1) 1).data) = initItems :=
  C2_pagination initItems 1 (by decide) (by decide)

/-! ## C9: id uniqueness and monotonic allocation -/

theorem nodup_append_block {β : Type} (g : β → Nat) (l newL : List β)
    (c c' : Nat) (hn : (l.map g).Nodup) (hlt : ∀ y ∈ l, g y < c)
    (hcc : c ≤ c') (hnew : ∀ y ∈ newL, c ≤ g y ∧ g y < c')
    (hpw : (newL.map g).Pairwise (· < ·)) :
    ((l ++ newL).map g).Nodup ∧ ∀ y ∈ l ++ newL, g y < c' := by
  constructor
  · rw [List.map_append, List.nodup_append]
    refine ⟨hn, hpw.imp (fun hab => Nat.ne_of_lt hab), ?_⟩
    intro a ha hb
    rcases List.mem_map.mp ha with ⟨y, hy, hya⟩
    rcases List.mem_map.mp hb with ⟨z, hz, hza⟩
    have hlt2 : g y < g z := lt_of_lt_of_le (hlt y hy) (hnew z hz).1
    rw [hya, hza] at hlt2
    exact absurd hlt2 (lt_irrefl a)
  · intro y hy
    rcases List.mem_append.mp hy with hy | hy
    · exact lt_of_lt_of_le (hlt y hy) hcc
    · exact (hnew y hy).2

theorem bulkCreateGo_spec (rid now : Nat) :
    ∀ (drafts : List ItemDraft) (i : Nat) (st : ServerState)
      (created : List Item) (errs : List String),
      ((bulkCreateGo rid now drafts i st created errs).2.users = st.users ∧
       (bulkCreateGo rid now drafts i st created errs).2.categories =
         st.categories ∧
       (bulkCreateGo rid now drafts i st created errs).2.nextUserId =
         st.nextUserId ∧
       (bulkCreateGo rid now drafts i st created errs).2.nextCategoryId =
         st.nextCategoryId ∧
       st.nextItemId ≤ (bulkCreateGo rid now drafts i st created errs).2.nextItemId) ∧
      ∃ newItems : List Item,
        (bulkCreateGo rid now drafts i st created errs).1.1 =
          created ++ newItems ∧
        (bulkCreateGo rid now drafts i st created errs).2.items =
          st.items ++ newItems ∧
        (∀ it ∈ newItems, st.nextItemId ≤ it.id ∧
          it.id < (bulkCreateGo rid now drafts i st created errs).2.nextItemId) ∧
        (newItems.map Item.id).Pairwise (· < ·)
  | [], i, st, created, errs => by
    refine ⟨⟨rfl, rfl, rfl, rfl, le_refl _⟩, [], by simp [bulkCreateGo], ?_, ?_, ?_⟩
    · simp [bulkCreateGo]
    · simp
    · simp
  | d :: rest, i, st, created, errs => by
    by_cases hbad : badCategoryRef st.categories d.categoryId
    · simp only [bulkCreateGo, if_pos hbad]
      exact bulkCreateGo_spec rid now rest (i + 1) st created
        (errs ++ ["Item " ++ toString (i + 1) ++ ": Invalid category ID"])
    · simp only [bulkCreateGo, if_neg hbad]
      obtain ⟨⟨hu, hc, hnu, hnc, hni⟩, newItems, h1, h2, h3, h4⟩ :=
        bulkCreateGo_spec rid now rest (i + 1)
          { st with items := st.items ++ [mkNewItem st.nextItemId rid d now],
                    nextItemId := st.nextItemId + 1 }
          (created ++ [mkNewItem st.nextItemId rid d now]) errs
      refine ⟨⟨hu, hc, hnu, hnc, ?_⟩,
        mkNewItem st.nextItemId rid d now :: newItems, ?_, ?_, ?_, ?_⟩
      · exact le_trans (Nat.le_succ _) hni
      · rw [h1]
        simp
      · rw [h2]
        simp
      · intro it hit
        rcases List.mem_cons.mp hit with rfl | hit
        · constructor
          · exact le_refl _
          · exact lt_of_lt_of_le (Nat.lt_succ_self _) hni
        · obtain ⟨hge, hlt⟩ := h3 it hit
          exact ⟨le_trans (Nat.le_succ _) hge, hlt⟩
      · rw [List.map_cons, List.pairwise_cons]
        refine ⟨?_, h4⟩
        intro b hb
        rcases List.mem_map.mp hb with ⟨z, hz, hzb⟩
        have hz1 := (h3 z hz).1
        dsimp only at hz1
        rw [← hzb]
        simp only [mkNewItem]
        omega

theorem bulkDeleteGo_spec (rid : Nat) (role : String) :
    ∀ (ids : List Nat) (st : ServerState) (deleted : List Item)
      (errs : List String),
      (bulkDeleteGo rid role ids st deleted errs).2.users = st.users ∧
      (bulkDeleteGo rid role ids st deleted errs).2.categories = st.categories ∧
      (bulkDeleteGo rid role ids st deleted errs).2.nextUserId = st.nextUserId ∧
      (bulkDeleteGo rid role ids st deleted errs).2.nextCategoryId =
        st.nextCategoryId ∧
      (bulkDeleteGo rid role ids st deleted errs).2.nextItemId =
        st.nextItemId ∧
      List.Sublist (bulkDeleteGo rid role ids st deleted errs).2.items st.items
  | [], st, deleted, errs => ⟨rfl, rfl, rfl, rfl, rfl, List.Sublist.refl _⟩
  | id :: rest, st, deleted, errs => by
    rcases hf : st.items.find? (fun it => it.id == id) with _ | existing
    · simp only [bulkDeleteGo, hf]
      exact bulkDeleteGo_spec rid role rest st deleted
        (errs ++ ["Item with ID " ++ toString id ++ " not found"])
    · by_cases hperm : (existing.userId != rid && role != "admin") = true
      · simp only [bulkDeleteGo, hf, if_pos hperm]
        exact bulkDeleteGo_spec rid role rest st deleted
          (errs ++ ["No permission to delete item with ID " ++ toString id])
      · simp only [bulkDeleteGo, hf, if_neg hperm]
        obtain ⟨hu, hc, hnu, hnc, hni, hsub⟩ :=
          bulkDeleteGo_spec rid role rest
            { st with items := removeFirstBy (fun it => it.id == id) st.items }
            (deleted ++ [existing]) errs
        exact ⟨hu, hc, hnu, hnc, hni,
          hsub.trans (removeFirstBy_sublist _ st.items)⟩

theorem stepSpec_of_unchanged (st : ServerState) (op : Op) (h : storeInv st)
    (hstep : step st op = st) (hu : userIdsCreated st op = [])
    (hc : catIdsCreated st op = []) (hi : itemIdsCreated st op = []) :
    StepSpec st op := by
  unfold StepSpec
  rw [hstep, hu, hc, hi]
  exact ⟨h, le_refl _, le_refl _, le_refl _,
    ⟨List.Pairwise.nil, by simp⟩, ⟨List.Pairwise.nil, by simp⟩,
    ⟨List.Pairwise.nil, by simp⟩⟩

theorem stepSpec_users_block (st : ServerState) (op : Op) (h : storeInv st)
    (newUsers : List User) (c' : Nat)
    (hstep : (step st op).users = st.users ++ newUsers ∧
      (step st op).categories = st.categories ∧
      (step st op).items = st.items ∧
      (step st op).nextUserId = c' ∧
      (step st op).nextCategoryId = st.nextCategoryId ∧
      (step st op).nextItemId = st.nextItemId)
    (hcc : st.nextUserId ≤ c')
    (hnew : ∀ u ∈ newUsers, st.nextUserId ≤ u.id ∧ u.id < c')
    (hpw : (newUsers.map User.id).Pairwise (· < ·))
    (hu : userIdsCreated st op = newUsers.map User.id)
    (hc : catIdsCreated st op = []) (hi : itemIdsCreated st op = []) :
    StepSpec st op := by
  obtain ⟨hs1, hs2, hs3, hs4, hs5, hs6⟩ := hstep
  obtain ⟨hun, hub, hcn, hcb, hin, hib⟩ := h
  obtain ⟨hn2, hb2⟩ := nodup_append_block User.id st.users newUsers
    st.nextUserId c' hun hub hcc hnew hpw
  unfold StepSpec
  rw [hu, hc, hi]
  refine ⟨?_, ?_, ?_, ?_, ⟨hpw, ?_⟩, ⟨List.Pairwise.nil, by simp⟩,
    ⟨List.Pairwise.nil, by simp⟩⟩
  · unfold storeInv
    rw [hs1, hs2, hs3, hs4, hs5, hs6]
    exact ⟨hn2, hb2, hcn, hcb, hin, hib⟩
  · rw [hs4]
    exact hcc
  · rw [hs5]
  · rw [hs6]
  · intro i hi2
    rcases List.mem_map.mp hi2 with ⟨u, hu2, rfl⟩
    rw [hs4]
    exact hnew u hu2

theorem stepSpec_cats_block (st : ServerState) (op : Op) (h : storeInv st)
    (newCats : List Category) (c' : Nat)
    (hstep : (step st op).users = st.users ∧
      (step st op).categories = st.categories ++ newCats ∧
      (step st op).items = st.items ∧
      (step st op).nextUserId = st.nextUserId ∧
      (step st op).nextCategoryId = c' ∧
      (step st op).nextItemId = st.nextItemId)
    (hcc : st.nextCategoryId ≤ c')
    (hnew : ∀ c ∈ newCats, st.nextCategoryId ≤ c.id ∧ c.id < c')
    (hpw : (newCats.map Category.id).Pairwise (· < ·))
    (hu : userIdsCreated st op = [])
    (hc : catIdsCreated st op = newCats.map Category.id)
    (hi : itemIdsCreated st op = []) :
    StepSpec st op := by
  obtain ⟨hs1, hs2, hs3, hs4, hs5, hs6⟩ := hstep
  obtain ⟨hun, hub, hcn, hcb, hin, hib⟩ := h
  obtain ⟨hn2, hb2⟩ := nodup_append_block Category.id st.categories newCats
    st.nextCategoryId c' hcn hcb hcc hnew hpw
  unfold StepSpec
  rw [hu, hc, hi]
  refine ⟨?_, ?_, ?_, ?_, ⟨List.Pairwise.nil, by simp⟩, ⟨hpw, ?_⟩,
    ⟨List.Pairwise.nil, by simp⟩⟩
  · unfold storeInv
    rw [hs1, hs2, hs3, hs4, hs5, hs6]
    exact ⟨hun, hub, hn2, hb2, hin, hib⟩
  · rw [hs4]
  · rw [hs5]
    exact hcc
  · rw [hs6]
  · intro i hi2
    rcases List.mem_map.mp hi2 with ⟨c, hc2, rfl⟩
    rw [hs5]
    exact hnew c hc2

theorem stepSpec_items_block (st : ServerState) (op : Op) (h : storeInv st)
    (newItems : List Item) (c' : Nat)
    (hstep : (step st op).users = st.users ∧
      (step st op).categories = st.categories ∧
      (step st op).items = st.items ++ newItems ∧
      (step st op).nextUserId = st.nextUserId ∧
      (step st op).nextCategoryId = st.nextCategoryId ∧
      (step st op).nextItemId = c')
    (hcc : st.nextItemId ≤ c')
    (hnew : ∀ it ∈ newItems, st.nextItemId ≤ it.id ∧ it.id < c')
    (hpw : (newItems.map Item.id).Pairwise (· < ·))
    (hu : userIdsCreated st op = [])
    (hc : catIdsCreated st op = [])
    (hi : itemIdsCreated st op = newItems.map Item.id) :
    StepSpec st op := by
  obtain ⟨hs1, hs2, hs3, hs4, hs5, hs6⟩ := hstep
  obtain ⟨hun, hub, hcn, hcb, hin, hib⟩ := h
  obtain ⟨hn2, hb2⟩ := nodup_append_block Item.id st.items newItems
    st.nextItemId c' hin hib hcc hnew hpw
  unfold StepSpec
  rw [hu, hc, hi]
  refine ⟨?_, ?_, ?_, ?_, ⟨List.Pairwise.nil, by simp⟩,
    ⟨List.Pairwise.nil, by simp⟩, ⟨hpw, ?_⟩⟩
  · unfold storeInv
    rw [hs1, hs2, hs3, hs4, hs5, hs6]
    exact ⟨hun, hub, hcn, hcb, hn2, hb2⟩
  · rw [hs4]
  · rw [hs5]
  · rw [hs6]
    exact hcc
  · intro i hi2
    rcases List.mem_map.mp hi2 with ⟨it, hit, rfl⟩
    rw [hs6]
    exact hnew it hit

theorem stepSpec_items_keep (st : ServerState) (op : Op) (h : storeInv st)
    (hstep : (step st op).users = st.users ∧
      (step st op).categories = st.categories ∧
      (step st op).items.map Item.id = st.items.map Item.id ∧
      (step st op).nextUserId = st.nextUserId ∧
      (step st op).nextCategoryId = st.nextCategoryId ∧
      (step st op).nextItemId = st.nextItemId)
    (hu : userIdsCreated st op = [])
    (hc : catIdsCreated st op = []) (hi : itemIdsCreated st op = []) :
    StepSpec st op := by
  obtain ⟨hs1, hs2, hs3, hs4, hs5, hs6⟩ := hstep
  obtain ⟨hun, hub, hcn, hcb, hin, hib⟩ := h
  unfold StepSpec
  rw [hu, hc, hi]
  refine ⟨?_, le_of_eq hs4.symm, le_of_eq hs5.symm, le_of_eq hs6.symm,
    ⟨List.Pairwise.nil, by simp⟩, ⟨List.Pairwise.nil, by simp⟩,
    ⟨List.Pairwise.nil, by simp⟩⟩
  unfold storeInv
  rw [hs1, hs2, hs4, hs5, hs6]
  refine ⟨hun, hub, hcn, hcb, ?_, ?_⟩
  · rw [hs3]
    exact hin
  · intro it hit
    have : it.id ∈ (step st op).items.map Item.id := List.mem_map_of_mem _ hit
    rw [hs3] at this
    rcases List.mem_map.mp this with ⟨y, hy, hyid⟩
    rw [← hyid]
    exact hib y hy

theorem stepSpec_users_keep (st : ServerState) (op : Op) (h : storeInv st)
    (hstep : (step st op).users.map User.id = st.users.map User.id ∧
      (step st op).categories = st.categories ∧
      (step st op).items = st.items ∧
      (step st op).nextUserId = st.nextUserId ∧
      (step st op).nextCategoryId = st.nextCategoryId ∧
      (step st op).nextItemId = st.nextItemId)
    (hu : userIdsCreated st op = [])
    (hc : catIdsCreated st op = []) (hi : itemIdsCreated st op = []) :
    StepSpec st op := by
  obtain ⟨hs1, hs2, hs3, hs4, hs5, hs6⟩ := hstep
  obtain ⟨hun, hub, hcn, hcb, hin, hib⟩ := h
  unfold StepSpec
  rw [hu, hc, hi]
  refine ⟨?_, le_of_eq hs4.symm, le_of_eq hs5.symm, le_of_eq hs6.symm,
    ⟨List.Pairwise.nil, by simp⟩, ⟨List.Pairwise.nil, by simp⟩,
    ⟨List.Pairwise.nil, by simp⟩⟩
  unfold storeInv
  rw [hs2, hs3, hs4, hs5, hs6]
  refine ⟨?_, ?_, hcn, hcb, hin, hib⟩
  · rw [hs1]
    exact hun
  · intro u hu2
    have : u.id ∈ (step st op).users.map User.id := List.mem_map_of_mem _ hu2
    rw [hs1] at this
    rcases List.mem_map.mp this with ⟨y, hy, hyid⟩
    rw [← hyid]
    exact hub y hy

theorem stepSpec_items_sub (st : ServerState) (op : Op) (h : storeInv st)
    (hstep : (step st op).users = st.users ∧
      (step st op).categories = st.categories ∧
      List.Sublist (step st op).items st.items ∧
      (step st op).nextUserId = st.nextUserId ∧
      (step st op).nextCategoryId = st.nextCategoryId ∧
      (step st op).nextItemId = st.nextItemId)
    (hu : userIdsCreated st op = [])
    (hc : catIdsCreated st op = []) (hi : itemIdsCreated st op = []) :
    StepSpec st op := by
  obtain ⟨hs1, hs2, hs3, hs4, hs5, hs6⟩ := hstep
  obtain ⟨hun, hub, hcn, hcb, hin, hib⟩ := h
  unfold StepSpec
  rw [hu, hc, hi]
  refine ⟨?_, le_of_eq hs4.symm, le_of_eq hs5.symm, le_of_eq hs6.symm,
    ⟨List.Pairwise.nil, by simp⟩, ⟨List.Pairwise.nil, by simp⟩,
    ⟨List.Pairwise.nil, by simp⟩⟩
  unfold storeInv
  rw [hs1, hs2, hs4, hs5, hs6]
  refine ⟨hun, hub, hcn, hcb, ?_, ?_⟩
  · exact hin.sublist (hs3.map Item.id)
  · intro it hit
    exact hib it (hs3.mem hit)

theorem step_spec (st : ServerState) (op : Op) (h : storeInv st) :
    StepSpec st op := by
  cases op with
  | register u e pwd n =>
    by_cases h1 : (st.users.find? (fun x => x.username == u)).isSome
    · exact stepSpec_of_unchanged st _ h
        (by simp [step, registerUser, h1])
        (by simp [userIdsCreated, registerUser, h1])
        (by simp [catIdsCreated]) (by simp [itemIdsCreated])
    · by_cases h2 : (st.users.find? (fun x => x.email == e)).isSome
      · exact stepSpec_of_unchanged st _ h
          (by simp [step, registerUser, h1, h2])
          (by simp [userIdsCreated, registerUser, h1, h2])
          (by simp [catIdsCreated]) (by simp [itemIdsCreated])
      · refine stepSpec_users_block st _ h
          [{ id := st.nextUserId, username := u, email := e, password := pwd,
             role := "user", createdAt := n, isActive := true }]
          (st.nextUserId + 1)
          ⟨by simp [step, registerUser, h1, h2],
           by simp [step, registerUser, h1, h2],
           by simp [step, registerUser, h1, h2],
           by simp [step, registerUser, h1, h2],
           by simp [step, registerUser, h1, h2],
           by simp [step, registerUser, h1, h2]⟩
          (Nat.le_succ _) ?_ (by simp)
          (by simp [userIdsCreated, registerUser, h1, h2])
          (by simp [catIdsCreated]) (by simp [itemIdsCreated])
        intro x hx
        rcases List.mem_singleton.mp hx with rfl
        exact ⟨le_refl _, Nat.lt_succ_self _⟩
  | createItem r d n =>
    by_cases hbad : badCategoryRef st.categories d.categoryId
    · exact stepSpec_of_unchanged st _ h
        (by simp [step, createItem, hbad])
        (by simp [userIdsCreated])
        (by simp [catIdsCreated])
        (by simp [itemIdsCreated, createItem, hbad])
    · refine stepSpec_items_block st _ h
        [mkNewItem st.nextItemId r.id d n] (st.nextItemId + 1)
        ⟨by simp [step, createItem, hbad],
         by simp [step, createItem, hbad],
         by simp [step, createItem, hbad],
         by simp [step, createItem, hbad],
         by simp [step, createItem, hbad],
         by simp [step, createItem, hbad]⟩
        (Nat.le_succ _) ?_ (by simp)
        (by simp [userIdsCreated])
        (by simp [catIdsCreated])
        (by simp [itemIdsCreated, createItem, hbad])
      intro x hx
      rcases List.mem_singleton.mp hx with rfl
      exact ⟨le_refl _, Nat.lt_succ_self _⟩
  | bulkCreateItems r ds n =>
    obtain ⟨⟨hbu, hbc, hbnu, hbnc, hbni⟩, newItems, h1, h2, h3, h4⟩ :=
      bulkCreateGo_spec r.id n ds 0 st [] []
    refine stepSpec_items_block st _ h newItems
      (step st (Op.bulkCreateItems r ds n)).nextItemId
      ⟨hbu, hbc, ?_, hbnu, hbnc, rfl⟩ hbni ?_ h4
      (by simp [userIdsCreated])
      (by simp [catIdsCreated]) ?_
    · exact h2
    · intro it hit
      exact h3 it hit
    · show ((bulkCreateItems st r ds n).1.1).map Item.id = newItems.map Item.id
      rw [bulkCreateItems, h1]
      simp
  | putItem r id b n =>
    rcases hf : st.items.find? (fun it => it.id == id) with _ | existing
    · exact stepSpec_of_unchanged st _ h
        (by simp [step, putItem, hf])
        (by simp [userIdsCreated]) (by simp [catIdsCreated])
        (by simp [itemIdsCreated])
    · by_cases hown : (existing.userId != r.id && r.role != "admin") = true
      · exact stepSpec_of_unchanged st _ h
          (by simp [step, putItem, hf, hown])
          (by simp [userIdsCreated]) (by simp [catIdsCreated])
          (by simp [itemIdsCreated])
      · by_cases hcat : badCategoryRef st.categories b.categoryId
        · exact stepSpec_of_unchanged st _ h
            (by simp [step, putItem, hf, hown, hcat])
            (by simp [userIdsCreated]) (by simp [catIdsCreated])
            (by simp [itemIdsCreated])
        · refine stepSpec_items_keep st _ h
            ⟨by simp [step, putItem, hf, hown, hcat],
             by simp [step, putItem, hf, hown, hcat], ?_,
             by simp [step, putItem, hf, hown, hcat],
             by simp [step, putItem, hf, hown, hcat],
             by simp [step, putItem, hf, hown, hcat]⟩
            (by simp [userIdsCreated]) (by simp [catIdsCreated])
            (by simp [itemIdsCreated])
          have hmap := replaceFirstBy_map_eq (fun it => it.id == id)
            (applyUpdate r.role b n) Item.id (fun x => rfl) st.items
          simp only [step, putItem, hf, hown, hcat]
          simpa using hmap
  | deleteItem r id =>
    rcases hf : st.items.find? (fun it => it.id == id) with _ | existing
    · exact stepSpec_of_unchanged st _ h
        (by simp [step, deleteItem, hf])
        (by simp [userIdsCreated]) (by simp [catIdsCreated])
        (by simp [itemIdsCreated])
    · by_cases hown : (existing.userId != r.id && r.role != "admin") = true
      · exact stepSpec_of_unchanged st _ h
          (by simp [step, deleteItem, hf, hown])
          (by simp [userIdsCreated]) (by simp [catIdsCreated])
          (by simp [itemIdsCreated])
      · refine stepSpec_items_sub st _ h
          ⟨by simp [step, deleteItem, hf, hown],
           by simp [step, deleteItem, hf, hown], ?_,
           by simp [step, deleteItem, hf, hown],
           by simp [step, deleteItem, hf, hown],
           by simp [step, deleteItem, hf, hown]⟩
          (by simp [userIdsCreated]) (by simp [catIdsCreated])
          (by simp [itemIdsCreated])
        simp only [step, deleteItem, hf, hown]
        simpa using removeFirstBy_sublist (fun it => it.id == id) st.items
  | bulkDeleteItems r ids =>
    obtain ⟨hbu, hbc, hbnu, hbnc, hbni, hbsub⟩ :=
      bulkDeleteGo_spec r.id r.role ids st [] []
    exact stepSpec_items_sub st _ h ⟨hbu, hbc, hbsub, hbnu, hbnc, hbni⟩
      (by simp [userIdsCreated]) (by simp [catIdsCreated])
      (by simp [itemIdsCreated])
  | createCategory nm ds =>
    by_cases hdup :
        (st.categories.find? (fun c => c.name.toLower == nm.toLower)).isSome
    · exact stepSpec_of_unchanged st _ h
        (by simp [step, createCategory, hdup])
        (by simp [userIdsCreated])
        (by simp [catIdsCreated, createCategory, hdup])
        (by simp [itemIdsCreated])
    · refine stepSpec_cats_block st _ h
        [{ id := st.nextCategoryId, name := nm.trim, description := ds.trim }]
        (st.nextCategoryId + 1)
        ⟨by simp [step, createCategory, hdup],
         by simp [step, createCategory, hdup],
         by simp [step, createCategory, hdup],
         by simp [step, createCategory, hdup],
         by simp [step, createCategory, hdup],
         by simp [step, createCategory, hdup]⟩
        (Nat.le_succ _) ?_ (by simp)
        (by simp [userIdsCreated])
        (by simp [catIdsCreated, createCategory, hdup])
        (by simp [itemIdsCreated])
      intro x hx
      rcases List.mem_singleton.mp hx with rfl
      exact ⟨le_refl _, Nat.lt_succ_self _⟩
  | setUserStatus r id b =>
    rcases hf : st.users.find? (fun u => u.id == id) with _ | target
    · exact stepSpec_of_unchanged st _ h
        (by simp [step, setUserStatus, hf])
        (by simp [userIdsCreated]) (by simp [catIdsCreated])
        (by simp [itemIdsCreated])
    · by_cases hself : (id == r.id && !b) = true
      · exact stepSpec_of_unchanged st _ h
          (by simp [step, setUserStatus, hf, hself])
          (by simp [userIdsCreated]) (by simp [catIdsCreated])
          (by simp [itemIdsCreated])
      · refine stepSpec_users_keep st _ h
          ⟨?_, by simp [step, setUserStatus, hf, hself],
           by simp [step, setUserStatus, hf, hself],
           by simp [step, setUserStatus, hf, hself],
           by simp [step, setUserStatus, hf, hself],
           by simp [step, setUserStatus, hf, hself]⟩
          (by simp [userIdsCreated]) (by simp [catIdsCreated])
          (by simp [itemIdsCreated])
        have hmap := replaceFirstBy_map_eq (fun u => u.id == id)
          (fun u => { u with isActive := b }) User.id (fun x => rfl) st.users
        simp only [step, setUserStatus, hf, hself]
        simpa using hmap

theorem allocLog_spec :
    ∀ (ops : List Op) (st : ServerState), storeInv st →
      storeInv (execOps st ops) ∧
      ((allocLog userIdsCreated st ops).Pairwise (· < ·) ∧
        ∀ i ∈ allocLog userIdsCreated st ops, st.nextUserId ≤ i) ∧
      ((allocLog catIdsCreated st ops).Pairwise (· < ·) ∧
        ∀ i ∈ allocLog catIdsCreated st ops, st.nextCategoryId ≤ i) ∧
      ((allocLog itemIdsCreated st ops).Pairwise (· < ·) ∧
        ∀ i ∈ allocLog itemIdsCreated st ops, st.nextItemId ≤ i)
  | [], st, h => by
    refine ⟨h, ⟨List.Pairwise.nil, ?_⟩, ⟨List.Pairwise.nil, ?_⟩,
      ⟨List.Pairwise.nil, ?_⟩⟩ <;> simp [allocLog]
  | op :: rest, st, h => by
    obtain ⟨hinv2, hle_u, hle_c, hle_i, ⟨hupw, hub⟩, ⟨hcpw, hcb⟩, ⟨hipw, hib⟩⟩ :=
      step_spec st op h
    obtain ⟨hinv3, ⟨hupw2, hub2⟩, ⟨hcpw2, hcb2⟩, ⟨hipw2, hib2⟩⟩ :=
      allocLog_spec rest (step st op) hinv2
    refine ⟨hinv3, ⟨?_, ?_⟩, ⟨?_, ?_⟩, ⟨?_, ?_⟩⟩
    · rw [allocLog, List.pairwise_append]
      refine ⟨hupw, hupw2, ?_⟩
      intro a ha b hb
      exact lt_of_lt_of_le (hub a ha).2 (hub2 b hb)
    · intro i hi
      rw [allocLog] at hi
      rcases List.mem_append.mp hi with hi | hi
      · exact (hub i hi).1
      · exact le_trans hle_u (hub2 i hi)
    · rw [allocLog, List.pairwise_append]
      refine ⟨hcpw, hcpw2, ?_⟩
      intro a ha b hb
      exact lt_of_lt_of_le (hcb a ha).2 (hcb2 b hb)
    · intro i hi
      rw [allocLog] at hi
      rcases List.mem_append.mp hi with hi | hi
      · exact (hcb i hi).1
      · exact le_trans hle_c (hcb2 i hi)
    · rw [allocLog, List.pairwise_append]
      refine ⟨hipw, hipw2, ?_⟩
      intro a ha b hb
      exact lt_of_lt_of_le (hib a ha).2 (hib2 b hb)
    · intro i hi
      rw [allocLog] at hi
      rcases List.mem_append.mp hi with hi | hi
      · exact (hib i hi).1
      · exact le_trans hle_i (hib2 i hi)

/-- C9: in every state reachable by a sequence of API operations from the
initial state, the ids within each store are pairwise distinct, and the
ids allocated over the run are, per store, strictly increasing in
allocation order — each created record's id is strictly greater than
every id previously allocated in that store, across deletions. -/
theorem C9_id_uniqueness_and_monotonic_allocation (ops : List Op) :
    ((execOps initState ops).users.map User.id).Nodup ∧
    ((execOps initState ops).categories.map Category.id).Nodup ∧
    ((execOps initState ops).items.map Item.id).Nodup ∧
    (allocLog userIdsCreated initState ops).Pairwise (· < ·) ∧
    (allocLog catIdsCreated initState ops).Pairwise (· < ·) ∧
    (allocLog itemIdsCreated initState ops).Pairwise (· < ·) := by
  have hinit : storeInv initState := by
    unfold storeInv
    refine ⟨?_, ?_, ?_, ?_, ?_, ?_⟩ <;> decide
  obtain ⟨⟨h1, h2, h3, h4, h5, h6⟩, ⟨hu, _⟩, ⟨hc, _⟩, ⟨hi, _⟩⟩ :=
    allocLog_spec ops initState hinit
  exact ⟨h1, h3, h5, hu, hc, hi⟩
